import Mathlib

/-!
Verification of the Canvas agent repository.

The development shallowly embeds the two source modules the claims are
about:

* `canvas_client.py` — the filtering/summarising operations built on
  top of the raw assignment fetch (`get_upcoming_assignments`,
  `get_late_assignments`, `find_assignment_by_name`,
  `get_assignment_summary`).  The network fetch and the timestamp parser
  (`datetime.datetime.fromisoformat`) are external collaborators and are
  passed in as parameters (`fetch`, `parse`); a `none` parse models a
  raised `ValueError`, and a parsed `PyDatetime` records whether the
  value is timezone-aware, because order-comparing it with the
  timezone-naive `datetime.now()` raises an uncaught `TypeError` that
  aborts the whole client call (`Except.error`).
* `agent.py` — the orchestration loop (`CanvasAgent.process_message`,
  `CanvasAgent._handle_tool_calls`).  The OpenAI gateway and the Canvas
  adapter are external collaborators, modelled by the `Env` record;
  `Except String` models a raised Python exception carrying `str(e)`.

Python dictionaries coming from the LMS are modelled by structures whose
fields are `Option`-valued; the `other` field carries all remaining LMS
fields, which the code treats as opaque.  For `due_at`, `none` covers
both an absent key and JSON `null` — every use site reads it through
truthiness, where the two behave identically; for the other optional
fields `none` models an absent key, matching the `.get` defaults the
code applies to them.  Rendered result strings (Python f-strings wrapping
`json.dumps`) are modelled structurally by the `ToolText` inductive: the
tag records the literal text around the dumped payload, the payload keeps
the dumped value itself.
-/

/-! ## Data model (LMS records, `canvas_client.py`) -/

/-- A course dictionary: `course.get("id")`, `course.get("name")`; all other
fields are opaque pass-through. -/
structure Course where
  id : Option Int := none
  name : Option String := none
  other : List (String × String) := []
deriving DecidableEq, Repr

/-- An assignment dictionary: the fields the core reads
(`id`, `name`, `due_at`, `points_possible`, `submitted`); all other fields
are opaque pass-through.  `submitted` models the truthiness of
`assignment.get("submitted", False)`.  `name` follows the LMS typing of
assignment names as strings: `none` is an absent key, read by the code as
`assignment.get("name", "")`. -/
structure Assignment where
  id : Option Int := none
  name : Option String := none
  due_at : Option String := none
  points_possible : Option Int := none
  submitted : Bool := false
  other : List (String × String) := []
deriving DecidableEq, Repr

/-- Python truthiness of `assignment.get("due_at")`: an absent key, `null`
and the empty string are all falsy. -/
def dueTruthy : Option String → Bool
  | none => false
  | some s => !(s == "")

/-- Source: `due_at.replace('Z', '+00:00')`.  The replaced pattern is the
single character Z, so per-character replacement is exact. -/
def replaceZ (s : String) : String :=
  ⟨s.data.flatMap fun c => if c = 'Z' then "+00:00".data else [c]⟩

/-! Timestamps.  `now = datetime.datetime.now()` (canvas_client.py lines
301 and 335) is timezone-NAIVE and is modelled as an integer of seconds.
`parse` stands for `datetime.datetime.fromisoformat`: it returns `none`
when the library would raise `ValueError`, and otherwise a `PyDatetime`
carrying the instant and whether the parsed value is timezone-AWARE (a
trailing UTC offset such as the "+00:00" that every Z-suffixed due date
becomes after the replace makes it aware).  Python raises `TypeError`
when a naive and an aware datetime are order-compared, and the source's
`except (ValueError, AttributeError)` does NOT catch it, so that
comparison aborts the whole client call.
`datetime.timedelta(days=d)` is `d * 86400` seconds. -/

/-- A parsed `datetime.datetime`: the instant in seconds and the
timezone-awareness flag. -/
structure PyDatetime where
  seconds : Int
  aware : Bool
deriving DecidableEq, Repr

/-- One day of `datetime.timedelta`, in seconds. -/
def secondsPerDay : Int := 86400

/-- The text of the `TypeError` Python raises when a timezone-naive and a
timezone-aware datetime are order-compared. -/
def naiveAwareCmpMsg : String :=
  "can't compare offset-naive and offset-aware datetimes"

/-- Whether processing one assignment raises the uncaught naive-vs-aware
`TypeError`: the assignment is not skipped (truthy `due_at`, not
submitted), its due date parses, and the parsed value is timezone-aware
while `now` is naive.  Identical for the upcoming and the late filter
(canvas_client.py lines 306-318 and 339-351 share the skip test, the
parse and the comparison shape). -/
def dueAware (parse : String → Option PyDatetime) (a : Assignment) : Bool :=
  if !(dueTruthy a.due_at) || a.submitted then false
  else
    match parse (replaceZ (a.due_at.getD "")) with
    | none => false
    | some due => due.aware

/-- The keep-test of `get_upcoming_assignments` on the non-raising
(timezone-naive) path: `now < due_date <= cutoff_date`. -/
def upcomingKeep (parse : String → Option PyDatetime) (now days : Int) (a : Assignment) : Bool :=
  if !(dueTruthy a.due_at) || a.submitted then false
  else
    match parse (replaceZ (a.due_at.getD "")) with
    | none => false
    | some due =>
      !due.aware &&
        (decide (now < due.seconds) && decide (due.seconds ≤ now + days * secondsPerDay))

/-- One iteration of the loop of `CanvasClient.get_upcoming_assignments`
(canvas_client.py lines 306-318): skip falsy `due_at` or submitted
assignments; skip unparseable dates (`ValueError` caught at line 316);
raise the uncaught `TypeError` when the parsed due date is aware (the
chained comparison `now < due_date <= cutoff_date` at line 314 compares
naive `now` with it first); otherwise keep the assignment when it falls
in the window. -/
def upcomingStep (parse : String → Option PyDatetime) (now days : Int)
    (upcoming : List Assignment) (a : Assignment) : Except String (List Assignment) :=
  if !(dueTruthy a.due_at) || a.submitted then .ok upcoming
  else
    match parse (replaceZ (a.due_at.getD "")) with
    | none => .ok upcoming
    | some due =>
      if due.aware then .error naiveAwareCmpMsg
      else if decide (now < due.seconds) && decide (due.seconds ≤ now + days * secondsPerDay)
        then .ok (upcoming ++ [a])
        else .ok upcoming

/-- `CanvasClient.get_upcoming_assignments` as a function of the raw
assignment list (the `await self.get_assignments(course_id)` result) and
the reference time `now`; `Except.error` is the uncaught `TypeError`
propagating out of the call. -/
def get_upcoming_assignments (parse : String → Option PyDatetime) (now : Int)
    (all_assignments : List Assignment) (days : Int) : Except String (List Assignment) :=
  all_assignments.foldlM (upcomingStep parse now days) []

/-- One iteration of the loop of `CanvasClient.get_late_assignments`
(canvas_client.py lines 339-351): same skip and parse behaviour as the
upcoming loop; the comparison `due_date < now` at line 347 raises the
uncaught `TypeError` for an aware parsed due date; otherwise keep
unsubmitted assignments strictly before `now`. -/
def lateStep (parse : String → Option PyDatetime) (now : Int)
    (late : List Assignment) (a : Assignment) : Except String (List Assignment) :=
  if !(dueTruthy a.due_at) || a.submitted then .ok late
  else
    match parse (replaceZ (a.due_at.getD "")) with
    | none => .ok late
    | some due =>
      if due.aware then .error naiveAwareCmpMsg
      else if decide (due.seconds < now) then .ok (late ++ [a])
      else .ok late

/-- `CanvasClient.get_late_assignments` as a function of the raw
assignment list and the reference time `now`; `Except.error` is the
uncaught `TypeError`. -/
def get_late_assignments (parse : String → Option PyDatetime) (now : Int)
    (all_assignments : List Assignment) : Except String (List Assignment) :=
  all_assignments.foldlM (lateStep parse now) []

/-! ## `find_assignment_by_name` (canvas_client.py lines 228-250) -/

/-- Executable test that the first list starts the second
(character-by-character). -/
def strStarts : List Char → List Char → Bool
  | [], _ => true
  | _ :: _, [] => false
  | p :: ps, c :: cs => p == c && strStarts ps cs

/-- Executable substring containment on character lists, modelling the
Python operator `pat in s`. -/
def containsSub (pat : List Char) : List Char → Bool
  | [] => pat.isEmpty
  | c :: cs => strStarts pat (c :: cs) || containsSub pat cs

/-- Python `pat in s` for strings. -/
def strContains (s pat : String) : Bool :=
  containsSub pat.data s.data

/-- Python `str.lower()`, character by character (the data of this
repository is ASCII, where per-character lowering is exact). -/
def lowerStr (s : String) : String := ⟨s.data.map Char.toLower⟩

/-- The match test of `find_assignment_by_name`:
`name_pattern.lower() in assignment.get("name", "").lower()`. -/
def matchesName (name_pattern : String) (a : Assignment) : Bool :=
  strContains (lowerStr (a.name.getD "")) (lowerStr name_pattern)

/-- `CanvasClient.find_assignment_by_name` as a pure function of the raw
assignment list: first match in list order, `none` when nothing matches. -/
def find_assignment_by_name (assignments : List Assignment)
    (name_pattern : String) : Option Assignment :=
  assignments.find? (matchesName name_pattern)

/-! ## `get_assignment_summary` (canvas_client.py lines 355-416) -/

/-- One entry of the summary's `late_assignments` / `upcoming_assignments`
lists (canvas_client.py lines 390-397 and 403-410). -/
structure SummaryEntry where
  course_name : Option String
  course_id : Option Int
  assignment_name : Option String
  assignment_id : Option Int
  due_date : Option String
  points_possible : Option Int
deriving DecidableEq, Repr

/-- Build one summary entry from a course and one of its assignments. -/
def summaryEntryOf (c : Course) (a : Assignment) : SummaryEntry :=
  { course_name := c.name
    course_id := c.id
    assignment_name := a.name
    assignment_id := a.id
    due_date := a.due_at
    points_possible := a.points_possible }

/-- The sort key `x.get("due_date", "")` of canvas_client.py lines 413-414.
Entries produced by the summary always carry a nonempty `due_date` string
(the late/upcoming filters drop falsy `due_at`), so the default is
unreachable on the values the code builds. -/
def entryKey (x : SummaryEntry) : String := x.due_date.getD ""

/-- Lexicographic comparison of character lists by code point, the
ordering Python uses to compare strings. -/
def charsLE : List Char → List Char → Bool
  | [], _ => true
  | _ :: _, [] => false
  | a :: as, b :: bs => if a = b then charsLE as bs else decide (a < b)

/-- Boolean ascending comparison on summary entries used for sorting,
lexicographic on the due-date string. -/
def entryLE (x y : SummaryEntry) : Bool := charsLE (entryKey x).data (entryKey y).data

/-- Insert `x` after every element `y` of an ascending list with
`le y x`; used to model Python's stable ascending `list.sort`. -/
def insertAsc (le : α → α → Bool) (x : α) : List α → List α
  | [] => [x]
  | y :: ys => if le y x then y :: insertAsc le x ys else x :: y :: ys

/-- Stable ascending sort (insertion sort, processing elements left to
right), modelling `list.sort(key=...)`. -/
def sortAsc (le : α → α → Bool) (l : List α) : List α :=
  l.foldl (fun acc x => insertAsc le x acc) []

/-- Python slicing `l[:n]`, which counts from the end when `n` is
negative. -/
def pyTake (n : Int) (l : List α) : List α :=
  if 0 ≤ n then l.take n.toNat else l.take (l.length - (-n).toNat)

/-- The summary dictionary built by `get_assignment_summary`
(canvas_client.py lines 374-379). -/
structure Summary where
  courses : Nat
  courses_checked : Int
  late_assignments : List SummaryEntry
  upcoming_assignments : List SummaryEntry
deriving DecidableEq, Repr

/-- Result of `get_assignment_summary`: the early return for an empty
course list (line 369) or the populated summary. -/
inductive SummaryResult where
  | noCourses
  | found (s : Summary)
deriving DecidableEq, Repr

/-- The per-course body of the summary loop (canvas_client.py lines
382-410): fetch the course's late and upcoming-within-7-days assignments
(either call may raise — `get_assignment_summary` has no try, so the
exception propagates and the whole summary call raises) and extend the
two entry lists in course order. -/
def summaryCourseStep (parse : String → Option PyDatetime) (now : Int)
    (fetch : Option Int → List Assignment)
    (acc : List SummaryEntry × List SummaryEntry) (c : Course) :
    Except String (List SummaryEntry × List SummaryEntry) := do
  let late ← get_late_assignments parse now (fetch c.id)
  let upcoming ← get_upcoming_assignments parse now (fetch c.id) 7
  return (acc.1 ++ late.map (summaryEntryOf c), acc.2 ++ upcoming.map (summaryEntryOf c))

/-- `CanvasClient.get_assignment_summary` as a function of the course
list and the per-course raw assignment fetch.  `fetch c.id` stands for
`await self.get_assignments(course_id)` made inside the late/upcoming
helpers; the per-course loop keeps course order, and both lists are
sorted ascending by the due-date-string key (Python `list.sort` is an
ascending stable sort, modelled by `sortAsc`).  `Except.error` is the
uncaught `TypeError` propagating out of a late/upcoming call. -/
def get_assignment_summary (parse : String → Option PyDatetime) (now : Int)
    (allCourses : List Course) (fetch : Option Int → List Assignment)
    (max_courses : Int) : Except String SummaryResult :=
  if allCourses.isEmpty then .ok .noCourses
  else
    let courses := pyTake max_courses allCourses
    match courses.foldlM (summaryCourseStep parse now fetch) ([], []) with
    | .error e => .error e
    | .ok (lateEntries, upcomingEntries) =>
      .ok (.found
        { courses := courses.length
          courses_checked := min (courses.length : Int) max_courses
          late_assignments := sortAsc entryLE lateEntries
          upcoming_assignments := sortAsc entryLE upcomingEntries })

/-! ## Agent data model (`agent.py`) -/

/-- `config.MAX_CONTEXT_LENGTH`. -/
def MAX_CONTEXT_LENGTH : Nat := 10

/-- The simplified course dictionary built in the `get_courses` branch of
`_handle_tool_calls` (agent.py lines 282-287). -/
structure SimpleCourse where
  id : Option Int
  name : Option String
deriving DecidableEq, Repr

/-- The simplified assignment dictionary built in the `get_assignments`
branch (agent.py lines 304-312): five fields, including `submitted`. -/
structure SimpleAsg where
  id : Option Int
  name : Option String
  due_at : Option String
  points_possible : Option Int
  submitted : Bool
deriving DecidableEq, Repr

/-- The simplified assignment dictionary built in the
`get_upcoming_assignments` / `get_late_assignments` branches
(agent.py lines 326-333 and 341-348): four fields, no `submitted`. -/
structure SimpleAsg4 where
  id : Option Int
  name : Option String
  due_at : Option String
  points_possible : Option Int
deriving DecidableEq, Repr

/-- Projection used by the `get_courses` branch. -/
def simplifyCourse (c : Course) : SimpleCourse := ⟨c.id, c.name⟩

/-- Projection used by the `get_assignments` branch. -/
def simplifyAsg (a : Assignment) : SimpleAsg :=
  ⟨a.id, a.name, a.due_at, a.points_possible, a.submitted⟩

/-- Projection used by the upcoming/late branches. -/
def simplifyAsg4 (a : Assignment) : SimpleAsg4 :=
  ⟨a.id, a.name, a.due_at, a.points_possible⟩

/-- One line appended to `results` in `_handle_tool_calls`, modelled
structurally: the constructor records the literal text of the f-string
("Courses: ...", "Assignments: ...", ...), the argument the payload that
the code passes to `json.dumps`.  Payloads the agent does not inspect
(course details, summary, assignment details, profile) are kept as opaque
strings produced by the adapter. -/
inductive ToolText where
  | courses (cs : List SimpleCourse)
  | courseDetails (p : String)
  | assignments (entries : List SimpleAsg)
  | assignmentSummary (p : String)
  | upcoming (entries : List SimpleAsg4)
  | late (entries : List SimpleAsg4)
  | assignmentDetails (p : String)
  | foundAssignment (a : Assignment)
  | noAssignmentFound (name_pattern : Option String) (course : Option Int)
  | userProfile (p : String)
deriving DecidableEq, Repr

/-- One entry of the `errors` list: the f-string
"Error executing {function_name}: {str(e)}" (agent.py line 370), kept
structurally as the tool name and the exception text. -/
structure ErrEntry where
  tool : String
  msg : String
deriving DecidableEq, Repr

/-- The content of a conversation turn.  `null` models Python `None`
(the assistant content when the model answered only with tool calls). -/
inductive Content where
  | text (s : String)
  | null
  | toolResult (t : ToolText)
  | errorReport (errs : List ErrEntry)
deriving DecidableEq, Repr

/-- One element of `self.context`: the dictionaries
{"role": ..., "content": ...} with an optional "name" key. -/
structure Turn where
  role : String
  name : Option String := none
  content : Content
deriving DecidableEq, Repr

/-- A tool call coming back from the model: `tool_call.function.name` and
the raw JSON text `tool_call.function.arguments`. -/
structure ToolCall where
  name : String
  arguments : String
deriving DecidableEq, Repr

/-- The decoded argument dictionary, restricted to the keys the dispatch
chain reads with `function_args.get(...)`; `none` models an absent key. -/
structure FnArgs where
  course_id : Option Int := none
  assignment_id : Option Int := none
  days : Option Int := none
  max_courses : Option Int := none
  name_pattern : Option String := none
deriving DecidableEq, Repr

/-- The Canvas adapter as seen from the dispatch loop: one operation per
`self.canvas.X` call site, each either returning its value or raising
(`Except.error` carries `str(e)`).  Identifier arguments are optional
because `function_args.get("course_id")` may be absent. -/
structure CanvasIface where
  get_courses : Except String (List Course)
  get_course : Option Int → Except String String
  get_assignments : Option Int → Except String (List Assignment)
  get_assignment_summary : Int → Except String String
  get_upcoming_assignments : Option Int → Int → Except String (List Assignment)
  get_late_assignments : Option Int → Except String (List Assignment)
  get_assignment_details : Option Int → Option Int → Except String String
  find_assignment_by_name : Option Int → Option String → Except String (Option Assignment)
  get_user_profile : Except String String

/-- The reply of `OpenAIClient.generate_with_tools`: a content string that
may be `None`, and a tool-call list that may be `None`. -/
structure GwReply where
  content : Option String
  tool_calls : Option (List ToolCall)

/-- The external collaborators of the orchestration loop:
`json.loads` over the argument text (an `Except.error` is a raised
`json.JSONDecodeError`), the Canvas adapter, and the two OpenAI entry
points.  `respond` models `generate_response`, which catches its own
exceptions and always returns a string. -/
structure Env where
  decodeArgs : String → Except String FnArgs
  canvas : CanvasIface
  respond : String → List Turn → String
  respondWithTools : String → List Turn → GwReply

/-! ## The dispatch loop (`CanvasAgent._handle_tool_calls`) -/

/-- The try-block body for one tool call (agent.py lines 277-368): the
if/elif chain on `function_name`, in source order.  Returns the line
appended to `results` (or `none` when no branch matched — an unknown name
falls through silently) together with the value this call contributes to
`large_response` (only the `get_assignments` branch, line 300, can set
it).  An `Except.error` is an exception raised by the adapter and caught
at line 369. -/
def dispatchTool (canvas : CanvasIface) (function_name : String) (args : FnArgs) :
    Except String (Option ToolText × Bool) :=
  if function_name = "get_courses" then
    (canvas.get_courses).map fun cs => (some (.courses (cs.map simplifyCourse)), false)
  else if function_name = "get_course_details" then
    (canvas.get_course args.course_id).map fun p => (some (.courseDetails p), false)
  else if function_name = "get_assignments" then
    (canvas.get_assignments args.course_id).map fun res =>
      (some (.assignments ((res.take 15).map simplifyAsg)), decide (10 < res.length))
  else if function_name = "get_assignment_summary" then
    (canvas.get_assignment_summary (args.max_courses.getD 5)).map fun p =>
      (some (.assignmentSummary p), false)
  else if function_name = "get_upcoming_assignments" then
    (canvas.get_upcoming_assignments args.course_id (args.days.getD 14)).map fun res =>
      (some (.upcoming (res.map simplifyAsg4)), false)
  else if function_name = "get_late_assignments" then
    (canvas.get_late_assignments args.course_id).map fun res =>
      (some (.late (res.map simplifyAsg4)), false)
  else if function_name = "get_assignment_details" then
    (canvas.get_assignment_details args.course_id args.assignment_id).map fun p =>
      (some (.assignmentDetails p), false)
  else if function_name = "find_assignment" then
    (canvas.find_assignment_by_name args.course_id args.name_pattern).map fun r =>
      match r with
      | some a => (some (.foundAssignment a), false)
      | none => (some (.noAssignmentFound args.name_pattern args.course_id), false)
  else if function_name = "get_user_profile" then
    (canvas.get_user_profile).map fun p => (some (.userProfile p), false)
  else
    .ok (none, false)

/-- The mutable locals of `_handle_tool_calls` while the loop runs:
`results`, `errors`, `large_response`, and the loop variable
`function_name` (which survives the loop and is used at line 378 to name
every appended result turn). -/
structure LoopState where
  results : List ToolText
  errors : List ErrEntry
  large : Bool
  fname : Option String
deriving DecidableEq, Repr

/-- One iteration of the `for tool_call in tool_calls` loop
(agent.py lines 269-374).  `json.loads` (line 271) runs outside the
try-block: its failure aborts the whole handler (`Except.error`).  An
adapter exception is caught at line 369 and appended to `errors` tagged
with the tool name. -/
def stepCall (env : Env) (st : LoopState) (tc : ToolCall) : Except String LoopState :=
  match env.decodeArgs tc.arguments with
  | .error e => .error e
  | .ok args =>
    match dispatchTool env.canvas tc.name args with
    | .ok (none, lg) => .ok { st with large := st.large || lg, fname := some tc.name }
    | .ok (some t, lg) =>
      .ok { st with results := st.results ++ [t], large := st.large || lg,
                    fname := some tc.name }
    | .error e =>
      .ok { st with errors := st.errors ++ [⟨tc.name, e⟩], fname := some tc.name }

/-- The whole dispatch loop, from the initial empty accumulators. -/
def runLoop (env : Env) (tool_calls : List ToolCall) : Except String LoopState :=
  tool_calls.foldlM (stepCall env) ⟨[], [], false, none⟩

/-- The suffix appended to the system prompt when `large_response` is set
(agent.py line 389). -/
def conciseSuffix : String :=
  "\nGive very concise responses. Focus on only the most important information. Summarize details rather than listing everything."

/-- `CanvasAgent._handle_tool_calls` (agent.py lines 253-397): run the
loop; append one function turn per result line, all named with the final
value of `function_name`; append one error-report turn when any errors
were recorded; call `generate_response` with the (possibly augmented)
system prompt; return the updated context and the final response.  The
`Except.error` case is the `json.loads` exception escaping the handler
before any context append happened. -/
def handle_tool_calls (env : Env) (system_prompt : String) (ctx : List Turn)
    (tool_calls : List ToolCall) : Except String (List Turn × String) :=
  match runLoop env tool_calls with
  | .error e => .error e
  | .ok st =>
    let ctx1 := ctx ++ st.results.map fun r =>
      { role := "function", name := st.fname, content := .toolResult r }
    let ctx2 :=
      if st.errors.isEmpty then ctx1
      else ctx1 ++ [{ role := "function", name := some "error_report",
                      content := .errorReport st.errors }]
    let target := if st.large then system_prompt ++ conciseSuffix else system_prompt
    .ok (ctx2, env.respond target ctx2)

/-! ## `CanvasAgent.process_message` (agent.py lines 203-251) -/

/-- The user turn appended at line 215. -/
def userTurn (message : String) : Turn := { role := "user", content := .text message }

/-- Context truncation (agent.py lines 218-219):
`self.context = self.context[-MAX_CONTEXT_LENGTH:]` when the length
exceeds the maximum. -/
def truncateCtx (ctx : List Turn) : List Turn :=
  if MAX_CONTEXT_LENGTH < ctx.length then ctx.drop (ctx.length - MAX_CONTEXT_LENGTH) else ctx

/-- Appending the user message (line 215) followed by the length cap
(lines 218-219). -/
def appendUserTurn (ctx : List Turn) (message : String) : List Turn :=
  truncateCtx (ctx ++ [userTurn message])

/-- The fallback text built when `_handle_tool_calls` raised
(agent.py line 243). -/
def toolFallback (e : String) : String :=
  "I tried to retrieve information from Canvas, but encountered an error: " ++ e ++
    "\n\nPlease check your Canvas API configuration and ensure the server is running."

/-- Assistant-turn content for a possibly-`None` result string. -/
def optContent : Option String → Content
  | some s => .text s
  | none => .null

/-- The persistent agent fields touched by `process_message`:
`self.context` and `self.system_prompt`. -/
structure AgentState where
  context : List Turn
  system_prompt : String
deriving DecidableEq, Repr

/-- `CanvasAgent.process_message`: append the user turn, truncate, call
the model with tools; when tool calls are present (Python truthiness: a
`None` or empty list is falsy) run the handler, falling back to the
apology text when it raised; finally append the assistant turn and return
the result (`none` models returning Python `None` content). -/
def process_message (env : Env) (st : AgentState) (message : String) :
    AgentState × Option String :=
  let ctx1 := appendUserTurn st.context message
  let reply := env.respondWithTools st.system_prompt ctx1
  let calls := reply.tool_calls.getD []
  if calls.isEmpty then
    ({ st with context := ctx1 ++ [{ role := "assistant", content := optContent reply.content }] },
      reply.content)
  else
    match handle_tool_calls env st.system_prompt ctx1 calls with
    | .ok (ctx2, final) =>
      ({ st with context := ctx2 ++ [{ role := "assistant", content := .text final }] },
        some final)
    | .error e =>
      let result := toolFallback e
      ({ st with context := ctx1 ++ [{ role := "assistant", content := .text result }] },
        some result)

/-- The nine tool names registered in `self.tools` (agent.py lines
43-201), which are exactly the names the dispatch chain tests. -/
def registeredToolNames : List String :=
  ["get_courses", "get_course_details", "get_assignments", "get_assignment_summary",
   "get_upcoming_assignments", "get_late_assignments", "get_assignment_details",
   "find_assignment", "get_user_profile"]

/-! ## Per-call characterisation of the dispatch loop -/

/-- The result line one tool call contributes (given its arguments decode):
`none` when the call fails, matches no branch, or does not decode. -/
def callResult (env : Env) (tc : ToolCall) : Option ToolText :=
  match env.decodeArgs tc.arguments with
  | .error _ => none
  | .ok args =>
    match dispatchTool env.canvas tc.name args with
    | .ok (r, _) => r
    | .error _ => none

/-- The error entry one tool call contributes: `some` exactly when its
adapter call raised, tagged with the call's own tool name. -/
def callErr (env : Env) (tc : ToolCall) : Option ErrEntry :=
  match env.decodeArgs tc.arguments with
  | .error _ => none
  | .ok args =>
    match dispatchTool env.canvas tc.name args with
    | .ok _ => none
    | .error e => some ⟨tc.name, e⟩

/-- Whether one tool call sets `large_response`. -/
def callLarge (env : Env) (tc : ToolCall) : Bool :=
  match env.decodeArgs tc.arguments with
  | .error _ => false
  | .ok args =>
    match dispatchTool env.canvas tc.name args with
    | .ok (_, lg) => lg
    | .error _ => false

/-- The final value of the `function_name` loop variable, starting from
`f`. -/
def lastNameFrom (f : Option String) : List ToolCall → Option String
  | [] => f
  | tc :: rest => lastNameFrom (some tc.name) rest

/-- When every call's arguments decode, the loop never aborts and its
final state is characterised call-by-call: the result lines are the
successful calls' lines in order, the error entries are the failing
calls' tagged entries in order, `large_response` is a disjunction over
the calls, and `function_name` is the last call's name. -/
theorem foldLoop_ok (env : Env) :
    ∀ (tool_calls : List ToolCall) (st : LoopState),
      (∀ tc ∈ tool_calls, ∃ a, env.decodeArgs tc.arguments = .ok a) →
      List.foldlM (stepCall env) st tool_calls =
        .ok { results := st.results ++ tool_calls.filterMap (callResult env),
              errors := st.errors ++ tool_calls.filterMap (callErr env),
              large := st.large || tool_calls.any (callLarge env),
              fname := lastNameFrom st.fname tool_calls } := by
  intro tool_calls
  induction tool_calls with
  | nil => intro st _; simp [lastNameFrom]; rfl
  | cons tc rest ih =>
    intro st h
    obtain ⟨a, ha⟩ := h tc (by simp)
    have hrest : ∀ tc' ∈ rest, ∃ a, env.decodeArgs tc'.arguments = .ok a := by
      intro tc' h'; exact h tc' (by simp [h'])
    rw [List.foldlM_cons]
    rcases hdisp : dispatchTool env.canvas tc.name a with e | ⟨r, lg⟩
    · have hstep : stepCall env st tc =
          .ok { st with errors := st.errors ++ [⟨tc.name, e⟩], fname := some tc.name } := by
        simp [stepCall, ha, hdisp]
      rw [hstep]
      show List.foldlM (stepCall env) _ rest = _
      rw [ih _ hrest]
      simp [callResult, callErr, callLarge, lastNameFrom, ha, hdisp]
    · rcases r with _ | t
      · have hstep : stepCall env st tc =
            .ok { st with large := st.large || lg, fname := some tc.name } := by
          simp [stepCall, ha, hdisp]
        rw [hstep]
        show List.foldlM (stepCall env) _ rest = _
        rw [ih _ hrest]
        simp [callResult, callErr, callLarge, lastNameFrom, ha, hdisp, Bool.or_assoc]
      · have hstep : stepCall env st tc =
            .ok { st with results := st.results ++ [t], large := st.large || lg,
                          fname := some tc.name } := by
          simp [stepCall, ha, hdisp]
        rw [hstep]
        show List.foldlM (stepCall env) _ rest = _
        rw [ih _ hrest]
        simp [callResult, callErr, callLarge, lastNameFrom, ha, hdisp, Bool.or_assoc]

/-- `runLoop` instance of the characterisation. -/
theorem runLoop_ok (env : Env) (tool_calls : List ToolCall)
    (h : ∀ tc ∈ tool_calls, ∃ a, env.decodeArgs tc.arguments = .ok a) :
    runLoop env tool_calls =
      .ok { results := tool_calls.filterMap (callResult env),
            errors := tool_calls.filterMap (callErr env),
            large := tool_calls.any (callLarge env),
            fname := lastNameFrom none tool_calls } := by
  have := foldLoop_ok env tool_calls ⟨[], [], false, none⟩ h
  simpa [runLoop] using this

/-! ## Correctness of the stable ascending sort -/

/-- Membership in an insertion. -/
theorem mem_insertAsc (le : α → α → Bool) (x z : α) :
    ∀ l : List α, z ∈ insertAsc le x l ↔ z = x ∨ z ∈ l := by
  intro l
  induction l with
  | nil => simp [insertAsc]
  | cons y ys ih =>
    by_cases h : le y x
    · simp only [insertAsc, if_pos h, List.mem_cons, ih]
      tauto
    · simp only [insertAsc, if_neg h, List.mem_cons]

/-- Inserting into an ascending list keeps it ascending, for a total and
transitive comparison. -/
theorem pairwise_insertAsc (le : α → α → Bool)
    (total : ∀ a b, le a b || le b a) (trans : ∀ a b c, le a b → le b c → le a c)
    (x : α) : ∀ l : List α, l.Pairwise (le · ·) → (insertAsc le x l).Pairwise (le · ·) := by
  intro l
  induction l with
  | nil => simp [insertAsc]
  | cons y ys ih =>
    intro h
    rcases List.pairwise_cons.1 h with ⟨hy, hys⟩
    by_cases hle : le y x
    · rw [insertAsc, if_pos hle]
      refine List.pairwise_cons.2 ⟨?_, ih hys⟩
      intro z hz
      rcases (mem_insertAsc le x z ys).1 hz with rfl | hz'
      · exact hle
      · exact hy z hz'
    · have hxy : le x y := by
        have := total y x
        rw [Bool.or_eq_true] at this
        rcases this with h1 | h2
        · exact absurd h1 hle
        · exact h2
      rw [insertAsc, if_neg hle]
      refine List.pairwise_cons.2 ⟨?_, h⟩
      intro z hz
      rcases List.mem_cons.1 hz with rfl | hz'
      · exact hxy
      · exact trans x y z hxy (hy z hz')

/-- The stable ascending sort is ascending, for a total and transitive
comparison. -/
theorem pairwise_sortAsc (le : α → α → Bool)
    (total : ∀ a b, le a b || le b a) (trans : ∀ a b c, le a b → le b c → le a c)
    (l : List α) : (sortAsc le l).Pairwise (le · ·) := by
  suffices h : ∀ acc : List α, acc.Pairwise (le · ·) →
      (l.foldl (fun acc x => insertAsc le x acc) acc).Pairwise (le · ·) by
    exact h [] (by simp)
  induction l with
  | nil => intro acc hacc; simpa using hacc
  | cons y ys ih =>
    intro acc hacc
    rw [List.foldl_cons]
    exact ih _ (pairwise_insertAsc le total trans y acc hacc)

/-- `charsLE` is total. -/
theorem charsLE_total : ∀ a b : List Char, charsLE a b || charsLE b a := by
  intro a
  induction a with
  | nil => intro b; simp [charsLE]
  | cons c cs ih =>
    intro b
    cases b with
    | nil => simp [charsLE]
    | cons d ds =>
      by_cases h : c = d
      · subst h
        simp only [charsLE, if_pos rfl]
        exact ih ds
      · have h' : ¬ d = c := fun hh => h hh.symm
        rcases lt_trichotomy c d with hlt | heq | hgt
        · simp [charsLE, h, h', hlt]
        · exact absurd heq h
        · simp [charsLE, h, h', hgt, not_lt_of_lt hgt]

/-- `charsLE` is transitive. -/
theorem charsLE_trans : ∀ a b c : List Char, charsLE a b → charsLE b c → charsLE a c := by
  intro a
  induction a with
  | nil => intro b c _ _; simp [charsLE]
  | cons x xs ih =>
    intro b c hab hbc
    cases b with
    | nil => simp [charsLE] at hab
    | cons y ys =>
      cases c with
      | nil => simp [charsLE] at hbc
      | cons z zs =>
        by_cases hxy : x = y
        · subst hxy
          rw [charsLE, if_pos rfl] at hab
          by_cases hyz : x = z
          · subst hyz
            rw [charsLE, if_pos rfl] at hbc ⊢
            exact ih ys zs hab hbc
          · rw [charsLE, if_neg hyz] at hbc ⊢
            exact hbc
        · rw [charsLE, if_neg hxy] at hab
          have hxy' : x < y := of_decide_eq_true hab
          by_cases hyz : y = z
          · subst hyz
            rw [charsLE, if_neg hxy]
            exact hab
          · rw [charsLE, if_neg hyz] at hbc
            have hyz' : y < z := of_decide_eq_true hbc
            have hxz : x < z := lt_trans hxy' hyz'
            rw [charsLE, if_neg (ne_of_lt hxz)]
            exact decide_eq_true hxz

/-- `entryLE` is total. -/
theorem entryLE_total : ∀ x y : SummaryEntry, entryLE x y || entryLE y x := by
  intro x y; exact charsLE_total _ _

/-- `entryLE` is transitive. -/
theorem entryLE_trans : ∀ x y z : SummaryEntry, entryLE x y → entryLE y z → entryLE x z := by
  intro x y z; exact charsLE_trans _ _ _

/-! ## Decidability of equality on raised-or-returned values -/

instance {ε α : Type _} [DecidableEq ε] [DecidableEq α] : DecidableEq (Except ε α) := fun x y =>
  match x, y with
  | .error e, .error f =>
    if h : e = f then .isTrue (congrArg Except.error h)
    else .isFalse fun hh => h (Except.error.inj hh)
  | .error _, .ok _ => .isFalse fun hh => Except.noConfusion hh
  | .ok _, .error _ => .isFalse fun hh => Except.noConfusion hh
  | .ok a, .ok b =>
    if h : a = b then .isTrue (congrArg Except.ok h)
    else .isFalse fun hh => h (Except.ok.inj hh)

/-! ## Concrete fixtures used by witnesses and counterexamples -/

/-- A concrete timestamp parser: the values of
`datetime.datetime.fromisoformat` on the dates used below, raising
(`none`) elsewhere.  An input with a trailing "+00:00" offset — what a
Z-suffixed due date becomes after the source's replace — parses
timezone-AWARE; the bare variants parse timezone-naive. -/
def parseW : String → Option PyDatetime := fun s =>
  if s = "2024-01-01T00:00:00+00:00" then some ⟨100, true⟩
  else if s = "2024-03-01T00:00:00+00:00" then some ⟨5000000, true⟩
  else if s = "2024-01-01T00:00:00" then some ⟨100, false⟩
  else if s = "2024-03-01T00:00:00" then some ⟨5000000, false⟩
  else none

/-- An assignment due in January, with the Z-suffixed (UTC) due date the
LMS serves; its parsed due date is timezone-aware. -/
def aJan : Assignment := { id := some 11, name := some "Jan HW", due_at := some "2024-01-01T00:00:00Z" }

/-- An assignment due in March, Z-suffixed. -/
def aMar : Assignment := { id := some 12, name := some "Mar HW", due_at := some "2024-03-01T00:00:00Z" }

/-- The January assignment with an offset-free due date, which parses
timezone-naive. -/
def aJanNaive : Assignment :=
  { id := some 16, name := some "Jan HW naive", due_at := some "2024-01-01T00:00:00" }

/-- The March assignment with an offset-free due date. -/
def aMarNaive : Assignment :=
  { id := some 17, name := some "Mar HW naive", due_at := some "2024-03-01T00:00:00" }

/-- An assignment with no due date. -/
def aNoDue : Assignment := { id := some 13, name := some "No due" }

/-- An assignment with an unparseable due date. -/
def aBadDue : Assignment := { id := some 14, name := some "Bad due", due_at := some "not-a-date" }

/-- A submitted assignment. -/
def aSubmitted : Assignment :=
  { id := some 15, name := some "Done", due_at := some "2024-01-01T00:00:00Z", submitted := true }

/-- A concrete course. -/
def course101 : Course := { id := some 101, name := some "Meta" }

/-- A per-course fetch returning the March assignment before the January
one. -/
def fetchW : Option Int → List Assignment := fun _ => [aMar, aJan]

/-! ## C4 — upcoming-assignments filter semantics -/

/-- C4: the upcoming filter does NOT return a filtered list on the
Z-suffixed UTC due dates the LMS serves.  The first conjunct records that
the parsed due date of the listed January assignment is timezone-aware;
the second evaluates `get_upcoming_assignments` at a list headed by that
assignment: naive `now` is order-compared with the aware due date at
canvas_client.py line 314 and the call raises the `TypeError` — which the
`except (ValueError, AttributeError)` at line 316 does not catch —
instead of returning the claimed filtered list.  The third conjunct
evaluates the same call on offset-free (timezone-naive) due dates, where
the claimed semantics does hold: the in-window unsubmitted January
assignment is kept and the out-of-window, missing-due, unparseable-due
and submitted assignments are silently excluded. -/
theorem C4_code_bug_eval :
    (parseW (replaceZ "2024-01-01T00:00:00Z")).map PyDatetime.aware = some true ∧
    get_upcoming_assignments parseW 50 [aJan, aMar, aNoDue, aBadDue, aSubmitted] 7 =
      .error naiveAwareCmpMsg ∧
    get_upcoming_assignments parseW 50 [aJanNaive, aMarNaive, aNoDue, aBadDue, aSubmitted] 7 =
      .ok [aJanNaive] := by
  refine ⟨rfl, rfl, rfl⟩

/-! ## C9 — horizon monotonicity -/

/-- The upcoming fold returns exactly when no processed assignment has an
aware parsed due date, and then it returns the accumulated prefix plus
the kept assignments in order. -/
theorem upcomingFold_ok_iff (parse : String → Option PyDatetime) (now days : Int) :
    ∀ (l upcoming res : List Assignment),
      List.foldlM (upcomingStep parse now days) upcoming l = .ok res ↔
        ((∀ a ∈ l, dueAware parse a = false) ∧
          res = upcoming ++ l.filter (upcomingKeep parse now days)) := by
  intro l
  induction l with
  | nil =>
    intro upcoming res
    show (Except.ok upcoming : Except String (List Assignment)) = .ok res ↔ _
    simp only [List.filter_nil, List.append_nil, List.not_mem_nil, false_implies, implies_true,
      true_and, Except.ok.injEq]
    exact eq_comm
  | cons a rest ih =>
    intro upcoming res
    rw [List.foldlM_cons]
    by_cases hskip : (!(dueTruthy a.due_at) || a.submitted) = true
    · have hstep : upcomingStep parse now days upcoming a = .ok upcoming := by
        unfold upcomingStep
        rw [if_pos hskip]
      have hA : dueAware parse a = false := by
        unfold dueAware
        rw [if_pos hskip]
      have hK : upcomingKeep parse now days a = false := by
        unfold upcomingKeep
        rw [if_pos hskip]
      rw [hstep]
      show List.foldlM (upcomingStep parse now days) upcoming rest = .ok res ↔ _
      rw [ih upcoming res]
      simp [hA, hK, List.filter_cons]
    · cases hparse : parse (replaceZ (a.due_at.getD "")) with
      | none =>
        have hstep : upcomingStep parse now days upcoming a = .ok upcoming := by
          unfold upcomingStep
          rw [if_neg hskip, hparse]
        have hA : dueAware parse a = false := by
          unfold dueAware
          rw [if_neg hskip, hparse]
        have hK : upcomingKeep parse now days a = false := by
          unfold upcomingKeep
          rw [if_neg hskip, hparse]
        rw [hstep]
        show List.foldlM (upcomingStep parse now days) upcoming rest = .ok res ↔ _
        rw [ih upcoming res]
        simp [hA, hK, List.filter_cons]
      | some due =>
        by_cases haw : due.aware = true
        · have hstep : upcomingStep parse now days upcoming a = .error naiveAwareCmpMsg := by
            unfold upcomingStep
            rw [if_neg hskip, hparse]
            simp [haw]
          have hA : dueAware parse a = true := by
            unfold dueAware
            rw [if_neg hskip, hparse]
            exact haw
          rw [hstep]
          show (Except.error naiveAwareCmpMsg : Except String (List Assignment)) = .ok res ↔ _
          simp [hA]
        · by_cases hcmp :
            (decide (now < due.seconds) && decide (due.seconds ≤ now + days * secondsPerDay)) = true
          · have hstep : upcomingStep parse now days upcoming a = .ok (upcoming ++ [a]) := by
              unfold upcomingStep
              rw [if_neg hskip, hparse]
              simp [haw, hcmp]
            have hA : dueAware parse a = false := by
              unfold dueAware
              rw [if_neg hskip, hparse]
              simpa using haw
            have hK : upcomingKeep parse now days a = true := by
              unfold upcomingKeep
              rw [if_neg hskip, hparse]
              simp [haw, hcmp]
            rw [hstep]
            show List.foldlM (upcomingStep parse now days) (upcoming ++ [a]) rest = .ok res ↔ _
            rw [ih (upcoming ++ [a]) res]
            simp [hA, hK, List.filter_cons]
          · have hstep : upcomingStep parse now days upcoming a = .ok upcoming := by
              unfold upcomingStep
              rw [if_neg hskip, hparse]
              simp [haw, hcmp]
            have hA : dueAware parse a = false := by
              unfold dueAware
              rw [if_neg hskip, hparse]
              simpa using haw
            have hK : upcomingKeep parse now days a = false := by
              unfold upcomingKeep
              rw [if_neg hskip, hparse]
              simp [haw, hcmp]
            rw [hstep]
            show List.foldlM (upcomingStep parse now days) upcoming rest = .ok res ↔ _
            rw [ih upcoming res]
            simp [hA, hK, List.filter_cons]

/-- `get_upcoming_assignments` returns a list exactly when no processed
assignment has an aware parsed due date, and that list is the filter of
the input; note the returning condition does not depend on the horizon. -/
theorem upcoming_ok_iff (parse : String → Option PyDatetime) (now days : Int)
    (all_assignments l : List Assignment) :
    get_upcoming_assignments parse now all_assignments days = .ok l ↔
      ((∀ a ∈ all_assignments, dueAware parse a = false) ∧
        l = all_assignments.filter (upcomingKeep parse now days)) := by
  unfold get_upcoming_assignments
  simpa using upcomingFold_ok_iff parse now days all_assignments [] l

/-- C9 counterexample: on the Z-suffixed UTC due date the LMS serves, the
upcoming filter raises the uncaught naive-vs-aware `TypeError` at every
horizon — at this input there is no result set at horizon 7 and none at
horizon 14, so no subset relation between result sets exists. -/
theorem C9_counterexample :
    get_upcoming_assignments parseW 50 [aJan] 7 = .error naiveAwareCmpMsg ∧
    get_upcoming_assignments parseW 50 [aJan] 14 = .error naiveAwareCmpMsg :=
  ⟨rfl, rfl⟩

/-- C9 amended: whenever the upcoming filter completes with a result set
at horizon d (no naive-vs-aware `TypeError` — completion does not depend
on the horizon), it also completes at any horizon d' > d and the
d-result set is a subset of the d'-result set. -/
theorem C9_horizon_monotone (parse : String → Option PyDatetime) (now : Int)
    (all_assignments : List Assignment) (d d' : Int) (h : d < d') (l : List Assignment)
    (hok : get_upcoming_assignments parse now all_assignments d = .ok l) :
    ∃ l', get_upcoming_assignments parse now all_assignments d' = .ok l' ∧ l ⊆ l' := by
  rw [upcoming_ok_iff] at hok
  obtain ⟨haware, hl⟩ := hok
  refine ⟨all_assignments.filter (upcomingKeep parse now d'),
    (upcoming_ok_iff parse now d' all_assignments _).2 ⟨haware, rfl⟩, ?_⟩
  subst hl
  intro a ha
  rw [List.mem_filter] at ha ⊢
  refine ⟨ha.1, ?_⟩
  have hk := ha.2
  unfold upcomingKeep at hk ⊢
  by_cases hskip : (!(dueTruthy a.due_at) || a.submitted) = true
  · rw [if_pos hskip] at hk
    simp at hk
  · rw [if_neg hskip] at hk ⊢
    cases hparse : parse (replaceZ (a.due_at.getD "")) with
    | none =>
      rw [hparse] at hk
      simp at hk
    | some due =>
      rw [hparse] at hk
      simp only [Bool.and_eq_true, decide_eq_true_eq] at hk ⊢
      obtain ⟨hnw, h1, h2⟩ := hk
      refine ⟨hnw, h1, le_trans h2 ?_⟩
      have hpos : (0 : Int) ≤ secondsPerDay := by norm_num [secondsPerDay]
      have hd : d * secondsPerDay ≤ d' * secondsPerDay :=
        mul_le_mul_of_nonneg_right h.le hpos
      linarith

/-- C9 witness: the naive-due-date January assignment, kept at horizon 7,
is also kept at horizon 14. -/
theorem C9_witness :
    ∃ l', get_upcoming_assignments parseW 50 [aJanNaive] 14 = .ok l' ∧ [aJanNaive] ⊆ l' :=
  C9_horizon_monotone parseW 50 [aJanNaive] 7 14 (by norm_num) [aJanNaive] (by decide)

/-! ## C8 — find-assignment-by-name -/

/-- An assignment whose name does not contain "quiz". -/
def essayA : Assignment := { id := some 21, name := some "Final Essay" }

/-- An assignment named "Quiz 1: Intro". -/
def quizA : Assignment := { id := some 22, name := some "Quiz 1: Intro" }

/-- C8: find-assignment-by-name performs a case-insensitive substring
match of the pattern against each assignment's name and returns the first
matching assignment in list order, or a not-found result when no
assignment matches — so whenever some assignment matches, the call does
not report not-found; in particular the pattern "quiz" matches an
assignment named "Quiz 1: Intro". -/
theorem C8_find_first_match (assignments : List Assignment) (name_pattern : String) :
    (∀ a, find_assignment_by_name assignments name_pattern = some a →
        matchesName name_pattern a = true ∧
        ∃ pre post, assignments = pre ++ a :: post ∧
          ∀ b ∈ pre, matchesName name_pattern b = false) ∧
    (find_assignment_by_name assignments name_pattern = none ↔
        ∀ a ∈ assignments, matchesName name_pattern a = false) ∧
    (∀ a ∈ assignments, matchesName name_pattern a = true →
        find_assignment_by_name assignments name_pattern ≠ none) ∧
    matchesName "quiz" { name := some "Quiz 1: Intro" } = true := by
  have hnone : find_assignment_by_name assignments name_pattern = none ↔
      ∀ a ∈ assignments, matchesName name_pattern a = false := by
    rw [find_assignment_by_name, List.find?_eq_none]
    constructor
    · intro h a ha
      simpa using h a ha
    · intro h a ha
      simp [h a ha]
  refine ⟨?_, hnone, ?_, by decide⟩
  · intro a ha
    rw [find_assignment_by_name, List.find?_eq_some] at ha
    obtain ⟨hmatch, pre, post, heq, hpre⟩ := ha
    refine ⟨hmatch, pre, post, heq, fun b hb => ?_⟩
    simpa using hpre b hb
  · intro a ha hm hcontra
    have hfalse := hnone.1 hcontra a ha
    rw [hm] at hfalse
    exact Bool.noConfusion hfalse

/-- C8 witness: in a list where only the second assignment matches, the
found assignment is that one, it matches "quiz" case-insensitively, and
everything before it does not match. -/
theorem C8_witness :
    matchesName "quiz" quizA = true ∧
    ∃ pre post, [essayA, quizA] = pre ++ quizA :: post ∧
      ∀ b ∈ pre, matchesName "quiz" b = false :=
  (C8_find_first_match [essayA, quizA] "quiz").1 quizA (by decide)

/-! ## C7 — assignment-summary sort order -/

/-- A per-course fetch returning offset-free (timezone-naive) due dates,
March before January. -/
def fetchNaiveW : Option Int → List Assignment := fun _ => [aMarNaive, aJanNaive]

/-- C7: the assignment summary does NOT return its two lists at the
claim's own concrete input.  The first conjunct evaluates the summary at
one course whose assignments carry the Z-suffixed due dates
["2024-03-01T00:00:00Z", "2024-01-01T00:00:00Z"]: `get_late_assignments`
order-compares the aware parsed due date with naive `now` at
canvas_client.py line 347 and raises the uncaught `TypeError`, which
propagates out of `get_assignment_summary` before any list is built or
sorted.  The second conjunct evaluates the same summary on the offset-free
variants of the same two due dates, where no `TypeError` arises: the late
list comes back sorted ascending by the due-date string — [Jan, Mar]
although the adapter returned [Mar, Jan] — as the claim intends. -/
theorem C7_code_bug_eval :
    get_assignment_summary parseW 1000000000 [course101] fetchW 5 = .error naiveAwareCmpMsg ∧
    get_assignment_summary parseW 1000000000 [course101] fetchNaiveW 5 =
      .ok (.found
        { courses := 1
          courses_checked := 1
          late_assignments :=
            [summaryEntryOf course101 aJanNaive, summaryEntryOf course101 aMarNaive]
          upcoming_assignments := [] }) := by
  refine ⟨rfl, rfl⟩

/-! ## Agent fixtures -/

/-- An adapter where every operation succeeds. -/
def canvasOkW : CanvasIface :=
  { get_courses := .ok [course101]
    get_course := fun _ => .ok "course-details"
    get_assignments := fun _ => .ok [aJan, aMar]
    get_assignment_summary := fun _ => .ok "summary"
    get_upcoming_assignments := fun _ _ => .ok [aJan]
    get_late_assignments := fun _ => .ok [aMar]
    get_assignment_details := fun _ _ => .ok "details"
    find_assignment_by_name := fun _ _ => .ok (some aJan)
    get_user_profile := .ok "profile" }

/-- A concrete `json.loads`: the empty-object text decodes, everything
else raises a decode error. -/
def decodeW : String → Except String FnArgs := fun s =>
  if s = "OBJ" then .ok {} else .error "Expecting value: line 1 column 1 (char 0)"

/-- A concrete environment whose final-response gateway echoes the system
prompt it was given, making the prompt used for the final model call
observable in the returned string. -/
def envW : Env :=
  { decodeArgs := decodeW
    canvas := canvasOkW
    respond := fun p _ => p
    respondWithTools := fun _ _ => { content := some "hi", tool_calls := none } }

/-! ## C1 — context-length cap -/

/-- A stored history already at the configured maximum length. -/
def ctxFull : List Turn := List.replicate MAX_CONTEXT_LENGTH (userTurn "m")

/-- The tool-result turn appended by the dispatch cycle of
`C1_counterexample`. -/
def profileTurn : Turn :=
  { role := "function", name := some "get_user_profile",
    content := .toolResult (.userProfile "profile") }

/-- C1 counterexample: appending a tool-result turn inside the dispatch
cycle performs no truncation; starting from a stored history already at
the maximum length, the history after the append has length
`MAX_CONTEXT_LENGTH + 1`, exceeding the configured maximum.  (Only the
user-turn append in `process_message` truncates.) -/
theorem C1_counterexample :
    handle_tool_calls envW "SYS" ctxFull [⟨"get_user_profile", "OBJ"⟩] =
      .ok (ctxFull ++ [profileTurn], "SYS") ∧
    (ctxFull ++ [profileTurn]).length = MAX_CONTEXT_LENGTH + 1 := by
  constructor
  · rfl
  · decide

/-- C1 amended: the cap is enforced by the user-turn append of
`process_message`: appending the user turn to a history longer than the
maximum leaves exactly the last `MAX_CONTEXT_LENGTH` turns, the newly
appended user turn being the last of them. -/
theorem C1_amended_user_append_caps (ctx : List Turn) (message : String)
    (h : MAX_CONTEXT_LENGTH < ctx.length) :
    (appendUserTurn ctx message).length = MAX_CONTEXT_LENGTH ∧
    (appendUserTurn ctx message).getLast? = some (userTurn message) := by
  unfold appendUserTurn truncateCtx
  have hlen : (ctx ++ [userTurn message]).length = ctx.length + 1 := by simp
  have hgt : MAX_CONTEXT_LENGTH < (ctx ++ [userTurn message]).length := by
    rw [hlen]; omega
  rw [if_pos hgt]
  constructor
  · rw [List.length_drop, hlen]
    simp only [MAX_CONTEXT_LENGTH] at h ⊢
    omega
  · rw [hlen]
    have hle : ctx.length + 1 - MAX_CONTEXT_LENGTH ≤ ctx.length := by
      simp only [MAX_CONTEXT_LENGTH] at h ⊢
      omega
    rw [List.drop_append_of_le_length hle, List.getLast?_concat]

/-- C1 witness: the amended cap at a history of length 11. -/
theorem C1_witness :
    (appendUserTurn (List.replicate 11 (userTurn "x")) "new").length = MAX_CONTEXT_LENGTH ∧
    (appendUserTurn (List.replicate 11 (userTurn "x")) "new").getLast? =
      some (userTurn "new") :=
  C1_amended_user_append_caps (List.replicate 11 (userTurn "x")) "new" (by decide)

/-! ## C2 — per-invocation failure isolation -/

/-- C2 counterexample: a tool call whose arguments are not well-formed
JSON aborts the whole dispatch cycle — the handler raises instead of
recording a tagged error, and the remaining invocation (whose adapter
operation succeeds) is never attempted. -/
theorem C2_counterexample :
    handle_tool_calls envW "SYS" [] [⟨"get_courses", "oops"⟩, ⟨"get_user_profile", "OBJ"⟩] =
      .error "Expecting value: line 1 column 1 (char 0)" ∧
    canvasOkW.get_user_profile = .ok "profile" := by
  constructor
  · rfl
  · rfl

/-- C2 amended: when every invocation's arguments decode, the cycle never
aborts; each adapter failure is caught at the per-invocation boundary and
becomes an error entry tagged with that tool's name, in call order, while
the remaining invocations still run (the result lines are exactly the
successful calls' lines, in order).  An argument-decode failure, by
contrast, escapes the dispatch loop (see the counterexample). -/
theorem C2_amended_isolation (env : Env) (system_prompt : String) (ctx : List Turn)
    (tool_calls : List ToolCall)
    (h : ∀ tc ∈ tool_calls, ∃ a, env.decodeArgs tc.arguments = .ok a) :
    ∃ st, runLoop env tool_calls = .ok st ∧
      st.errors = tool_calls.filterMap (callErr env) ∧
      st.results = tool_calls.filterMap (callResult env) ∧
      ∃ p, handle_tool_calls env system_prompt ctx tool_calls = .ok p := by
  refine ⟨_, runLoop_ok env tool_calls h, rfl, rfl, ?_⟩
  rw [handle_tool_calls, runLoop_ok env tool_calls h]
  exact ⟨_, rfl⟩

/-- An adapter raising on course details only. -/
def canvasFailDetails : CanvasIface :=
  { canvasOkW with get_course := fun _ => .error "Canvas API error: boom" }

/-- An environment whose course-details adapter call raises. -/
def envFailDetails : Env := { envW with canvas := canvasFailDetails }

/-- C2 witness: three decodable calls, the second of which fails in the
adapter; the loop completes with exactly one error entry tagged
"get_course_details" and the two successful results. -/
theorem C2_witness :
    ∃ st, runLoop envFailDetails
        [⟨"get_courses", "OBJ"⟩, ⟨"get_course_details", "OBJ"⟩, ⟨"get_user_profile", "OBJ"⟩] =
        .ok st ∧
      st.errors =
        [⟨"get_courses", "OBJ"⟩, ⟨"get_course_details", "OBJ"⟩,
          ⟨"get_user_profile", "OBJ"⟩].filterMap (callErr envFailDetails) ∧
      st.results =
        [⟨"get_courses", "OBJ"⟩, ⟨"get_course_details", "OBJ"⟩,
          ⟨"get_user_profile", "OBJ"⟩].filterMap (callResult envFailDetails) ∧
      ∃ p, handle_tool_calls envFailDetails "SYS" []
          [⟨"get_courses", "OBJ"⟩, ⟨"get_course_details", "OBJ"⟩,
            ⟨"get_user_profile", "OBJ"⟩] = .ok p :=
  C2_amended_isolation envFailDetails "SYS" []
    [⟨"get_courses", "OBJ"⟩, ⟨"get_course_details", "OBJ"⟩, ⟨"get_user_profile", "OBJ"⟩]
    (by
      intro tc htc
      refine ⟨{}, ?_⟩
      fin_cases htc <;> rfl)

/-! ## C3 — naming of tool-result turns -/

/-- C3 evaluation at the failing input: three tool calls (first and third
succeed, second raises).  The transcript does contain exactly two
tool-result turns, one error-report turn whose content is tagged with the
failing tool's name, and a non-empty final text — but both tool-result
turns carry the name of the LAST call ("find_assignment"); the first
result, produced by "get_courses", is not named "get_courses", because
line 378 of agent.py names every result turn with the final value of the
loop variable `function_name`. -/
theorem C3_code_bug_eval :
    handle_tool_calls envFailDetails "SYS" []
        [⟨"get_courses", "OBJ"⟩, ⟨"get_course_details", "OBJ"⟩, ⟨"find_assignment", "OBJ"⟩] =
      .ok ([{ role := "function", name := some "find_assignment",
              content := .toolResult (.courses [⟨some 101, some "Meta"⟩]) },
            { role := "function", name := some "find_assignment",
              content := .toolResult (.foundAssignment aJan) },
            { role := "function", name := some "error_report",
              content := .errorReport [⟨"get_course_details", "Canvas API error: boom"⟩] }],
           "SYS") ∧
    some "find_assignment" ≠ some "get_courses" ∧
    "SYS" ≠ "" := by
  refine ⟨rfl, by decide, by decide⟩

/-! ## C5 — large-response heuristic and system-prompt frame -/

/-- The `large_response` contribution of a dispatch branch whose shaping
function never sets the flag. -/
theorem largeOfBranch_false {γ : Type _} (X : Except String γ)
    (f : γ → Option ToolText × Bool) (hf : ∀ v, (f v).2 = false) :
    (match X.map f with
      | .ok (_, lg) => lg
      | .error _ => false) = false := by
  cases X with
  | error e => rfl
  | ok v =>
    show (f v).2 = false
    exact hf v

/-- Only the broad list-assignments branch of the dispatch chain can set
`large_response`; every other tool contributes `false`. -/
theorem callLarge_only_get_assignments (env : Env) (tc : ToolCall)
    (hn : tc.name ≠ "get_assignments") : callLarge env tc = false := by
  unfold callLarge
  cases hdec : env.decodeArgs tc.arguments with
  | error e => rfl
  | ok args =>
    unfold dispatchTool
    split_ifs <;>
      first
        | rfl
        | exact largeOfBranch_false _ _ (fun v => rfl)
        | exact largeOfBranch_false _ _ (fun v => by rcases v with _ | a <;> rfl)

/-- An adapter returning twenty courses. -/
def canvasManyCourses : CanvasIface :=
  { canvasOkW with get_courses := .ok (List.replicate 20 course101) }

/-- An environment whose course list has twenty entries. -/
def envManyCourses : Env := { envW with canvas := canvasManyCourses }

/-- C5 counterexample: a list-type tool result (the course list) with 20
items — more than 10 — does NOT switch the final model call to the terser
prompt: only the broad list-assignments branch sets `large_response`.
The echoing gateway shows the final call received the bare system prompt,
not the prompt with the terser-output suffix. -/
theorem C5_counterexample :
    envManyCourses.canvas.get_courses = .ok (List.replicate 20 course101) ∧
    (List.replicate 20 course101).length = 20 ∧
    handle_tool_calls envManyCourses "SYS" [] [⟨"get_courses", "OBJ"⟩] =
      .ok ([{ role := "function", name := some "get_courses",
              content := .toolResult (.courses (List.replicate 20 ⟨some 101, some "Meta"⟩)) }],
           "SYS") ∧
    "SYS" ≠ "SYS" ++ conciseSuffix := by
  refine ⟨rfl, rfl, rfl, by decide⟩

/-- C5 amended: the terser prompt is used for the cycle's final model
call exactly when some call set `large_response`, which only the broad
list-assignments tool can do; and the stored system prompt is unchanged
by every cycle. -/
theorem C5_amended_large_flag (env : Env) (system_prompt : String) (ctx : List Turn)
    (tool_calls : List ToolCall)
    (h : ∀ tc ∈ tool_calls, ∃ a, env.decodeArgs tc.arguments = .ok a) :
    (∃ ctx2, handle_tool_calls env system_prompt ctx tool_calls =
        .ok (ctx2,
          env.respond
            (if tool_calls.any (callLarge env) then system_prompt ++ conciseSuffix
             else system_prompt) ctx2)) ∧
    (∀ tc, callLarge env tc = true → tc.name = "get_assignments") ∧
    (∀ st message, ((process_message env st message).1).system_prompt = st.system_prompt) := by
  refine ⟨?_, ?_, ?_⟩
  · rw [handle_tool_calls, runLoop_ok env tool_calls h]
    exact ⟨_, rfl⟩
  · intro tc hlg
    by_contra hne
    rw [callLarge_only_get_assignments env tc hne] at hlg
    exact Bool.false_ne_true hlg
  · intro st message
    unfold process_message
    dsimp only
    split
    · rfl
    · split <;> rfl

/-- An adapter returning twenty assignments for the broad list call. -/
def canvasManyAsg : CanvasIface :=
  { canvasOkW with get_assignments := fun _ => .ok (List.replicate 20 aJan) }

/-- An environment whose broad assignment list has twenty entries. -/
def envManyAsg : Env := { envW with canvas := canvasManyAsg }

/-- C5 witness: the amended statement at a broad list-assignments call
returning twenty items. -/
theorem C5_witness :
    (∃ ctx2, handle_tool_calls envManyAsg "SYS" [] [⟨"get_assignments", "OBJ"⟩] =
        .ok (ctx2,
          envManyAsg.respond
            (if [ToolCall.mk "get_assignments" "OBJ"].any (callLarge envManyAsg) then
               "SYS" ++ conciseSuffix
             else "SYS") ctx2)) ∧
    (∀ tc, callLarge envManyAsg tc = true → tc.name = "get_assignments") ∧
    (∀ st message,
        ((process_message envManyAsg st message).1).system_prompt = st.system_prompt) :=
  C5_amended_large_flag envManyAsg "SYS" [] [⟨"get_assignments", "OBJ"⟩]
    (by
      intro tc htc
      refine ⟨{}, ?_⟩
      fin_cases htc
      rfl)

/-! ## C6 — shaping and truncation of the broad assignment list -/

/-- C6: whenever the broad list-assignments adapter call returns, the
single result turn appended to the transcript carries the assignments
reduced to the five simplified fields and truncated to the first fifteen
entries in the adapter's return order, and the appended entry list never
exceeds fifteen entries. -/
theorem C6_assignments_shaping (env : Env) (system_prompt : String) (ctx : List Turn)
    (argtext : String) (args : FnArgs) (res : List Assignment)
    (hdec : env.decodeArgs argtext = .ok args)
    (hres : env.canvas.get_assignments args.course_id = .ok res) :
    ∃ final, handle_tool_calls env system_prompt ctx [⟨"get_assignments", argtext⟩] =
        .ok (ctx ++ [{ role := "function", name := some "get_assignments",
                       content := .toolResult (.assignments ((res.take 15).map simplifyAsg)) }],
             final) ∧
      ((res.take 15).map simplifyAsg).length ≤ 15 := by
  have h : ∀ tc ∈ [(⟨"get_assignments", argtext⟩ : ToolCall)],
      ∃ a, env.decodeArgs tc.arguments = .ok a := by
    intro tc htc
    rw [List.mem_singleton] at htc
    subst htc
    exact ⟨args, hdec⟩
  have hres' : callResult env ⟨"get_assignments", argtext⟩ =
      some (.assignments ((res.take 15).map simplifyAsg)) := by
    unfold callResult
    rw [hdec]
    unfold dispatchTool
    simp [hres, Except.map]
  have herr : callErr env ⟨"get_assignments", argtext⟩ = none := by
    unfold callErr
    rw [hdec]
    unfold dispatchTool
    simp [hres, Except.map]
  rw [handle_tool_calls, runLoop_ok env _ h]
  simp only [List.filterMap_cons, List.filterMap_nil, hres', herr, lastNameFrom,
    List.map_cons, List.map_nil, List.isEmpty_nil, if_true]
  refine ⟨_, rfl, ?_⟩
  simp only [List.length_map, List.length_take]
  omega

/-- C6 witness: for an adapter response of twenty assignments the appended
entry list has exactly the first fifteen, hence at most fifteen entries. -/
theorem C6_witness :
    ∃ final, handle_tool_calls envManyAsg "SYS" [] [⟨"get_assignments", "OBJ"⟩] =
        .ok ([{ role := "function", name := some "get_assignments",
                content := .toolResult (.assignments
                  (((List.replicate 20 aJan).take 15).map simplifyAsg)) }],
             final) ∧
      (((List.replicate 20 aJan).take 15).map simplifyAsg).length ≤ 15 :=
  C6_assignments_shaping envManyAsg "SYS" [] "OBJ" {} (List.replicate 20 aJan) rfl rfl

/-! ## C10 — unknown tool names -/

/-- C10 counterexample: an invocation with an unregistered name appends
neither a tool-result turn nor an error entry — but the cycle does NOT
continue as if the invocation had not occurred: the unknown name
overwrites the loop variable `function_name`, so when it is the last
invocation the tool-result turns appended after the loop carry the
unknown name instead of the producing tool's name. -/
theorem C10_counterexample :
    handle_tool_calls envW "SYS" [] [⟨"get_courses", "OBJ"⟩, ⟨"bogus_tool", "OBJ"⟩] =
      .ok ([{ role := "function", name := some "bogus_tool",
              content := .toolResult (.courses [⟨some 101, some "Meta"⟩]) }], "SYS") ∧
    handle_tool_calls envW "SYS" [] [⟨"get_courses", "OBJ"⟩] =
      .ok ([{ role := "function", name := some "get_courses",
              content := .toolResult (.courses [⟨some 101, some "Meta"⟩]) }], "SYS") ∧
    handle_tool_calls envW "SYS" [] [⟨"get_courses", "OBJ"⟩, ⟨"bogus_tool", "OBJ"⟩] ≠
      handle_tool_calls envW "SYS" [] [⟨"get_courses", "OBJ"⟩] := by
  refine ⟨rfl, rfl, by decide⟩

/-- C10 amended: a decodable invocation whose name matches none of the
nine registered tools appends no result line and no error entry and
leaves `results`, `errors` and `large_response` untouched; its only
effect is to overwrite the loop variable `function_name` with the unknown
name (which the post-loop append then uses to name the result turns). -/
theorem C10_amended_unknown_tool (env : Env) (st : LoopState) (tc : ToolCall) (args : FnArgs)
    (hdec : env.decodeArgs tc.arguments = .ok args)
    (hn : tc.name ∉ registeredToolNames) :
    stepCall env st tc = .ok { st with fname := some tc.name } := by
  simp only [registeredToolNames, List.mem_cons, List.not_mem_nil, or_false, not_or] at hn
  obtain ⟨h1, h2, h3, h4, h5, h6, h7, h8, h9⟩ := hn
  unfold stepCall
  rw [hdec]
  unfold dispatchTool
  simp [h1, h2, h3, h4, h5, h6, h7, h8, h9]

/-- C10 witness: the amended statement at a concrete unknown tool name. -/
theorem C10_witness :
    stepCall envW ⟨[], [], false, none⟩ ⟨"bogus_tool", "OBJ"⟩ =
      .ok ⟨[], [], false, some "bogus_tool"⟩ :=
  C10_amended_unknown_tool envW ⟨[], [], false, none⟩ ⟨"bogus_tool", "OBJ"⟩ {} rfl (by decide)
